import Mathlib

/-!
# Verification of the remote relay controller (src/src/main.cpp)

This file gives a shallow embedding of the per-channel logic of the
SensESP sketch in `src/src/main.cpp`: the constants of `setup`
(lines 39-50), the remote-update LED consumer (lines 86-91), the local
toggle state (line 94) with the button-press consumer (lines 98-107),
and the four-channel wiring of the `setup` loop (lines 52-108).

The `Debounce<bool>(50)` transform instantiated at line 61 belongs to the
external SensESP framework; its implementation is not part of this
repository's sources, so it is modelled from the specification's stated
policy (a fixed 50 ms window measured from the prior accepted
transition).
-/

namespace RemoteRelay

/-! ## Constants of `setup` (main.cpp lines 39-50) -/

/-- `const int num_relays = 4;` (main.cpp line 39). -/
def num_relays : Nat := 4

/-- `int buttonPins[num_relays] = {16, 17, 18, 19};` (main.cpp line 42). -/
def buttonPins : List Nat := [16, 17, 18, 19]

/-- `int statusLEDPins[num_relays] = {12, 13, 14, 15};` (main.cpp line 43). -/
def statusLEDPins : List Nat := [12, 13, 14, 15]

/-- `const char* default_sk_paths[num_relays] = {...};` (main.cpp lines 46-50). -/
def default_sk_paths : List String :=
  ["electrical.switches.light.cabin.state",
   "electrical.switches.light.port.state",
   "electrical.switches.light.starboard.state",
   "electrical.switches.light.engine.state"]

/-! ## Single-channel state and handlers -/

/-- The mutable state one channel's lambdas close over: the heap-allocated
`bool* current_state = new bool(false)` (main.cpp line 94) and the level last
written to the channel's `status_led` `DigitalOutput` (main.cpp line 85). -/
structure Channel where
  current_state : Bool
  led : Bool
  deriving Repr, DecidableEq

/-- Channel state right after `setup`: `current_state` starts `false`
(main.cpp line 94); the LED has not been driven high. -/
def initChannel : Channel := ⟨false, false⟩

/-- The button-press `LambdaConsumer` (main.cpp lines 98-107): on a debounced
sample `state`, `if (!state)` toggle `*current_state` and call
`sk_put_request->set(*current_state)`.  The second component lists the
values passed to `set` during the call (none on a released sample). -/
def onButton (ch : Channel) (state : Bool) : Channel × List Bool :=
  if state = false then
    let ns := ! ch.current_state
    ({ ch with current_state := ns }, [ns])
  else
    (ch, [])

/-- The remote-update `LambdaConsumer` (main.cpp lines 86-91): on a value
from the `SKValueListener` it calls `status_led->set(state)`,
unconditionally. -/
def on_remote_update (ch : Channel) (state : Bool) : Channel :=
  { ch with led := state }

/-! ## The debounce filter (main.cpp line 61)

`Debounce<bool>(50)` comes from the SensESP framework, whose sources are
not in this repository. -/

/-- The 50 ms debounce period passed at `new Debounce<bool>(50)`
(main.cpp line 61). -/
def debounce_ms : Nat := 50

/-- Modelled from the spec: the state of the `Debounce<bool>` transform
(main.cpp line 61), whose implementation lives in the external SensESP
framework and is absent from src/.  Per the spec it "suppresses
transitions occurring within 50ms of the prior accepted transition
(policy: fixed debounce window ...)", so the state is the time of the
prior accepted transition, if any. -/
structure DebounceState where
  lastAccepted : Option Nat
  deriving Repr, DecidableEq

/-- Debounce state right after construction: no transition accepted yet. -/
def initDebounce : DebounceState := ⟨none⟩

/-- Modelled from the spec: one raw button transition, at time `t` (ms)
with level `level`, entering the debounce filter.  A transition is
accepted (and forwarded to the connected consumer) unless it occurs
within `debounce_ms` of the prior accepted transition. -/
def debounceStep (s : DebounceState) (t : Nat) (level : Bool) :
    DebounceState × Option Bool :=
  match s.lastAccepted with
  | none => (⟨some t⟩, some level)
  | some t0 =>
    if t0 + debounce_ms ≤ t then (⟨some t⟩, some level)
    else (s, none)

/-! ## The full per-channel pipeline

`button -> debouncer -> press consumer` together with the independent
`sk_value_listener -> LED consumer` (main.cpp lines 57-107). -/

/-- An input event of one channel: a raw button transition (timestamped,
feeding the debouncer) or a remote state notification for the channel's
path (feeding the LED consumer). -/
inductive TimedEvent where
  | button (t : Nat) (level : Bool)
  | remote (value : Bool)
  deriving Repr, DecidableEq

/-- An observable output of one channel: a value sent with
`sk_put_request->set` (main.cpp line 103) or a level written with
`status_led->set` (main.cpp line 88). -/
inductive ChanOut where
  | publish (value : Bool)
  | ledWrite (value : Bool)
  deriving Repr, DecidableEq

/-- Combined per-channel state: debounce filter state plus the lambda
closure state. -/
structure FullState where
  deb : DebounceState
  ch : Channel
  deriving Repr, DecidableEq

/-- Per-channel state right after `setup`. -/
def initFull : FullState := ⟨initDebounce, initChannel⟩

/-- Dispatch of one event through the wired pipeline: a button transition
passes the debouncer and, if accepted, the press consumer; a remote
notification goes straight to the LED consumer. -/
def fullStep (s : FullState) : TimedEvent → FullState × List ChanOut
  | .button t level =>
    let (d1, out) := debounceStep s.deb t level
    match out with
    | none => ({ s with deb := d1 }, [])
    | some lv =>
      let (ch1, pubs) := onButton s.ch lv
      (⟨d1, ch1⟩, pubs.map ChanOut.publish)
  | .remote v => ({ s with ch := on_remote_update s.ch v }, [ChanOut.ledWrite v])

/-- Run of the pipeline over a list of events, collecting outputs in
order. -/
def fullRun : FullState → List TimedEvent → FullState × List ChanOut
  | s, [] => (s, [])
  | s, e :: es =>
    ((fullRun (fullStep s e).1 es).1,
     (fullStep s e).2 ++ (fullRun (fullStep s e).1 es).2)

/-! ## The four-channel system (main.cpp lines 52-108) -/

/-- One channel controller as wired by iteration `i` of the `setup` loop:
its button pin (line 58), LED pin (line 85), the fixed path of its
`SKValueListener` (lines 81-82), the path of its `SKPutRequest`
(lines 71-72) — runtime-configurable through the `ConfigItem` wrapper
(lines 75-77) — and the closure state. -/
structure ChannelCtl where
  buttonPin : Nat
  ledPin : Nat
  listen_path : String
  put_path : String
  current_state : Bool
  led : Bool
  deriving Repr, DecidableEq

/-- The controller built by iteration `i` of the `setup` loop. -/
def mkChannel (i : Nat) : ChannelCtl :=
  { buttonPin := buttonPins.getD i 0
    ledPin := statusLEDPins.getD i 0
    listen_path := default_sk_paths.getD i ""
    put_path := default_sk_paths.getD i ""
    current_state := false
    led := false }

/-- The four controllers after `setup` completes (main.cpp lines 52-108). -/
def initSystem : List ChannelCtl := (List.range num_relays).map mkChannel

/-- A system-level event: a debounced button sample delivered to channel
`i`'s press consumer, a SignalK notification carrying `value` for `path`
(delivered to every listener on that path), or the web UI reconfiguring
channel `i`'s `SKPutRequest` path via its `ConfigItem`. -/
inductive SysEvent where
  | press (i : Nat) (level : Bool)
  | remote (path : String) (value : Bool)
  | config (i : Nat) (path : String)
  deriving Repr, DecidableEq

/-- A value sent with `sk_put_request->set`, tagged with the path the
request is currently configured for. -/
structure Publish where
  path : String
  value : Bool
  deriving Repr, DecidableEq

/-- Channel `i`'s press consumer at system level: same code as `onButton`
(main.cpp lines 98-107), publishing on the channel's current put path. -/
def ctlButton (ch : ChannelCtl) (level : Bool) : ChannelCtl × List Publish :=
  if level = false then
    let ns := ! ch.current_state
    ({ ch with current_state := ns }, [⟨ch.put_path, ns⟩])
  else
    (ch, [])

/-- Channel `i`'s listener-plus-LED consumer at system level: an
`SKValueListener` on `ch.listen_path` receives notifications for exactly
that path and drives the LED (main.cpp lines 81-91). -/
def ctlRemote (ch : ChannelCtl) (path : String) (v : Bool) : ChannelCtl :=
  if ch.listen_path = path then { ch with led := v } else ch

/-- One system step. A press sample reaches only channel `i`'s consumer;
a notification reaches every listener whose path matches; a `ConfigItem`
update rewrites channel `i`'s put path only. -/
def sysStep (sys : List ChannelCtl) : SysEvent → List ChannelCtl × List Publish
  | .press i level =>
    match sys[i]? with
    | some ch =>
      let (ch1, pubs) := ctlButton ch level
      (sys.set i ch1, pubs)
    | none => (sys, [])
  | .remote path v => (sys.map (fun ch => ctlRemote ch path v), [])
  | .config i p =>
    match sys[i]? with
    | some ch => (sys.set i { ch with put_path := p }, [])
    | none => (sys, [])

/-- Run of the system over a list of events, collecting publishes. -/
def sysRun : List ChannelCtl → List SysEvent → List ChannelCtl × List Publish
  | sys, [] => (sys, [])
  | sys, e :: es =>
    ((sysRun (sysStep sys e).1 es).1,
     (sysStep sys e).2 ++ (sysRun (sysStep sys e).1 es).2)

/-! ## Proof-support definitions -/

/-- The publish sequence produced by a run of accepted presses starting
from toggle state `b`: alternating values beginning with `!b`. -/
def altPubs (b : Bool) : Nat → List ChanOut
  | 0 => []
  | n + 1 => ChanOut.publish (! b) :: altPubs (! b) n

/-- The toggle state after `n` accepted presses starting from `b`. -/
def altEnd (b : Bool) : Nat → Bool
  | 0 => b
  | n + 1 => altEnd (! b) n

/-- Modelled from the spec: the debounce filter accepts a transition at
time `t` iff no transition was accepted before, or the prior accepted
transition is at least `debounce_ms` older. -/
def accepts (d : DebounceState) (t : Nat) : Prop :=
  d.lastAccepted = none ∨ ∃ t0, d.lastAccepted = some t0 ∧ t0 + debounce_ms ≤ t

/-- The per-channel pipeline `fullStep`, presented branch by branch as a
step relation: an accepted press toggles and publishes, an accepted
release does nothing, a suppressed transition changes nothing, a remote
notification drives the LED. -/
inductive ChanStep : FullState → TimedEvent → FullState → List ChanOut → Prop where
  | acceptPress (d : DebounceState) (c : Channel) (t : Nat) (h : accepts d t) :
      ChanStep ⟨d, c⟩ (TimedEvent.button t false)
        ⟨⟨some t⟩, ⟨! c.current_state, c.led⟩⟩
        [ChanOut.publish (! c.current_state)]
  | acceptRelease (d : DebounceState) (c : Channel) (t : Nat) (h : accepts d t) :
      ChanStep ⟨d, c⟩ (TimedEvent.button t true) ⟨⟨some t⟩, c⟩ []
  | suppressed (d : DebounceState) (c : Channel) (t t0 : Nat) (level : Bool)
      (h0 : d.lastAccepted = some t0) (hlt : t < t0 + debounce_ms) :
      ChanStep ⟨d, c⟩ (TimedEvent.button t level) ⟨d, c⟩ []
  | remote (d : DebounceState) (c : Channel) (v : Bool) :
      ChanStep ⟨d, c⟩ (TimedEvent.remote v) ⟨d, ⟨c.current_state, v⟩⟩
        [ChanOut.ledWrite v]

/-- A run of the per-channel step relation over a list of events,
accumulating outputs in order. -/
inductive ChanRun : FullState → List TimedEvent → FullState → List ChanOut → Prop where
  | nil (s : FullState) : ChanRun s [] s []
  | cons {s s1 s2 : FullState} {e : TimedEvent} {es : List TimedEvent}
      {o1 o2 : List ChanOut} (hstep : ChanStep s e s1 o1)
      (hrun : ChanRun s1 es s2 o2) : ChanRun s (e :: es) s2 (o1 ++ o2)

/-! ## Helper lemmas -/

/-- Setting index `i` to a value that `f` cannot distinguish from the
element already there leaves `l.map f` unchanged. -/
theorem map_set_self {α β : Type} (f : α → β) :
    ∀ (l : List α) (i : Nat) (a : α),
      (∀ b, l[i]? = some b → f a = f b) → (l.set i a).map f = l.map f := by
  intro l
  induction l with
  | nil => intro i a _; rfl
  | cons x xs ih =>
    intro i a h
    cases i with
    | zero =>
      simp only [List.set_cons_zero, List.map_cons]
      rw [h x (by simp)]
    | succ n =>
      simp only [List.set_cons_succ, List.map_cons]
      rw [ih n a (fun b hb => h b (by simpa using hb))]

/-- `ctlButton` never touches the LED, the listener path, the put path or
the pins. -/
theorem ctlButton_frame (ch : ChannelCtl) (level : Bool) :
    ((ctlButton ch level).1).led = ch.led ∧
    ((ctlButton ch level).1).listen_path = ch.listen_path ∧
    ((ctlButton ch level).1).put_path = ch.put_path ∧
    ((ctlButton ch level).1).buttonPin = ch.buttonPin ∧
    ((ctlButton ch level).1).ledPin = ch.ledPin := by
  unfold ctlButton
  by_cases h : level = false <;> simp [h]

/-- `ctlRemote` never touches the toggle state, the listener path, the
put path or the pins. -/
theorem ctlRemote_frame (ch : ChannelCtl) (path : String) (v : Bool) :
    (ctlRemote ch path v).current_state = ch.current_state ∧
    (ctlRemote ch path v).listen_path = ch.listen_path ∧
    (ctlRemote ch path v).put_path = ch.put_path ∧
    (ctlRemote ch path v).buttonPin = ch.buttonPin ∧
    (ctlRemote ch path v).ledPin = ch.ledPin := by
  unfold ctlRemote
  by_cases h : ch.listen_path = path <;> simp [h]

/-- A system step never changes the listener paths. -/
theorem sysStep_listen_paths (sys : List ChannelCtl) (e : SysEvent) :
    ((sysStep sys e).1).map ChannelCtl.listen_path
      = sys.map ChannelCtl.listen_path := by
  cases e with
  | press i level =>
    unfold sysStep
    cases h : sys[i]? with
    | none => simp [h]
    | some ch =>
      simp only [h]
      exact map_set_self ChannelCtl.listen_path sys i ((ctlButton ch level).1)
        (fun b hb => by
          rw [h] at hb
          cases hb
          exact (ctlButton_frame ch level).2.1)
  | remote path v =>
    unfold sysStep
    simp only [List.map_map]
    exact List.map_congr_left (fun ch _ => (ctlRemote_frame ch path v).2.1)
  | config i p =>
    unfold sysStep
    cases h : sys[i]? with
    | none => simp [h]
    | some ch =>
      simp only [h]
      exact map_set_self ChannelCtl.listen_path sys i { ch with put_path := p }
        (fun b hb => by
          rw [h] at hb
          cases hb
          rfl)

/-- A run of the system never changes the listener paths. -/
theorem sysRun_listen_paths (evs : List SysEvent) :
    ∀ sys : List ChannelCtl,
      ((sysRun sys evs).1).map ChannelCtl.listen_path
        = sys.map ChannelCtl.listen_path := by
  induction evs with
  | nil => intro sys; rfl
  | cons e es ih =>
    intro sys
    show ((sysRun (sysStep sys e).1 es).1).map _ = _
    rw [ih, sysStep_listen_paths]

/-- The listener paths of the running four-channel system are always the
compile-time defaults. -/
theorem sysRun_init_listen_paths (evs : List SysEvent) :
    ((sysRun initSystem evs).1).map ChannelCtl.listen_path
      = default_sk_paths := by
  rw [sysRun_listen_paths]
  rfl

/-- A system step never changes the number of channels. -/
theorem sysStep_length (sys : List ChannelCtl) (e : SysEvent) :
    ((sysStep sys e).1).length = sys.length := by
  cases e with
  | press i level =>
    unfold sysStep
    cases h : sys[i]? with
    | none => simp [h]
    | some ch => simp [h]
  | remote path v => simp [sysStep]
  | config i p =>
    unfold sysStep
    cases h : sys[i]? with
    | none => simp [h]
    | some ch => simp [h]

/-- A system run never changes the number of channels. -/
theorem sysRun_length (evs : List SysEvent) :
    ∀ sys : List ChannelCtl, ((sysRun sys evs).1).length = sys.length := by
  induction evs with
  | nil => intro sys; rfl
  | cons e es ih =>
    intro sys
    show ((sysRun (sysStep sys e).1 es).1).length = _
    rw [ih, sysStep_length]

/-- A button sample, debounced or suppressed, never changes the LED
level of its channel. -/
theorem fullStep_button_led (s : FullState) (t : Nat) (lv : Bool) :
    ((fullStep s (TimedEvent.button t lv)).1).ch.led = s.ch.led := by
  cases hd : debounceStep s.deb t lv with
  | mk d1 out =>
    cases out with
    | none => simp [fullStep, hd]
    | some v =>
      cases v with
      | false => simp [fullStep, hd, onButton]
      | true => simp [fullStep, hd, onButton]

/-- A button transition arriving while no transition was ever accepted is
accepted and forwarded. -/
theorem fullStep_accept_none (ch : Channel) (t : Nat) (lv : Bool) :
    fullStep ⟨⟨none⟩, ch⟩ (TimedEvent.button t lv)
      = (⟨⟨some t⟩, (onButton ch lv).1⟩,
         ((onButton ch lv).2).map ChanOut.publish) := by
  cases hb : onButton ch lv with
  | mk ch1 pubs => simp [fullStep, debounceStep, hb]

/-- A button transition arriving at least `debounce_ms` after the prior
accepted one is accepted and forwarded. -/
theorem fullStep_accept_some (t0 t : Nat) (ch : Channel) (lv : Bool)
    (hle : t0 + debounce_ms ≤ t) :
    fullStep ⟨⟨some t0⟩, ch⟩ (TimedEvent.button t lv)
      = (⟨⟨some t⟩, (onButton ch lv).1⟩,
         ((onButton ch lv).2).map ChanOut.publish) := by
  cases hb : onButton ch lv with
  | mk ch1 pubs => simp [fullStep, debounceStep, hle, hb]

/-- A button transition within `debounce_ms` of the prior accepted one is
suppressed: nothing reaches the press consumer. -/
theorem fullStep_suppressed (t0 t : Nat) (ch : Channel) (lv : Bool)
    (hlt : t < t0 + debounce_ms) :
    fullStep ⟨⟨some t0⟩, ch⟩ (TimedEvent.button t lv) = (⟨⟨some t0⟩, ch⟩, []) := by
  simp [fullStep, debounceStep, Nat.not_le.mpr hlt]

/-- States compose along appended event lists. -/
theorem fullRun_append_fst (a : List TimedEvent) :
    ∀ (s : FullState) (b : List TimedEvent),
      (fullRun s (a ++ b)).1 = (fullRun (fullRun s a).1 b).1 := by
  induction a with
  | nil => intro s b; rfl
  | cons e es ih =>
    intro s b
    show (fullRun (fullStep s e).1 (es ++ b)).1 = _
    exact ih (fullStep s e).1 b

/-- A run containing no remote notification leaves the LED level
untouched. -/
theorem fullRun_no_remote_led (post : List TimedEvent)
    (hpost : ∀ e ∈ post, ∀ w, e ≠ TimedEvent.remote w) :
    ∀ s : FullState, ((fullRun s post).1).ch.led = s.ch.led := by
  induction post with
  | nil => intro s; rfl
  | cons e es ih =>
    intro s
    show ((fullRun (fullStep s e).1 es).1).ch.led = _
    rw [ih (fun x hx w => hpost x (by simp [hx]) w) ((fullStep s e).1)]
    cases e with
    | button t lv => exact fullStep_button_led s t lv
    | remote w => exact absurd rfl (hpost (TimedEvent.remote w) (by simp) w)

/-- The LED after a remote notification followed only by button events is
the notified value. -/
theorem fullRun_led_last_remote (s : FullState) (evs post : List TimedEvent)
    (v : Bool) (hpost : ∀ e ∈ post, ∀ w, e ≠ TimedEvent.remote w) :
    ((fullRun s (evs ++ TimedEvent.remote v :: post)).1).ch.led = v := by
  rw [fullRun_append_fst]
  show ((fullRun (fullStep (fullRun s evs).1 (TimedEvent.remote v)).1 post).1).ch.led = v
  rw [fullRun_no_remote_led post hpost]
  rfl

/-! ## Claim theorems -/

/-- C4: a debounced button sample with level `true` (released) performs
no publish and leaves the channel state (in particular the Local Toggle
State) unchanged; only a `false` (pressed) sample triggers the
toggle-and-publish action, which flips the state and publishes the
flipped value. -/
theorem release_sample_no_effect (ch : Channel) :
    onButton ch true = (ch, []) ∧
    (onButton ch false).2 = [! ch.current_state] ∧
    ((onButton ch false).1).current_state = ! ch.current_state := by
  unfold onButton
  simp

/-- C5: the Local Toggle State is mutated only by the debounced-press
handler: `on_remote_update` leaves it unchanged on every channel, a
`ConfigItem` path update leaves it unchanged on every channel, and its
initial value is `false`. -/
theorem toggle_mutated_only_by_press (ch : Channel) (v : Bool)
    (sys : List ChannelCtl) (p q : String) (i j : Nat) :
    (on_remote_update ch v).current_state = ch.current_state ∧
    initChannel.current_state = false ∧
    ((sysStep sys (SysEvent.remote p v)).1).map ChannelCtl.current_state
      = sys.map ChannelCtl.current_state ∧
    ((sysStep sys (SysEvent.config j q)).1).map ChannelCtl.current_state
      = sys.map ChannelCtl.current_state ∧
    (mkChannel i).current_state = false := by
  refine ⟨rfl, rfl, ?_, ?_, rfl⟩
  · show (sys.map fun c => ctlRemote c p v).map _ = _
    rw [List.map_map]
    exact List.map_congr_left (fun c _ => (ctlRemote_frame c p v).1)
  · unfold sysStep
    cases h : sys[j]? with
    | none => simp [h]
    | some c =>
      simp only [h]
      exact map_set_self ChannelCtl.current_state sys j { c with put_path := q }
        (fun b hb => by
          rw [h] at hb
          cases hb
          rfl)

/-- C6: the LED output changes solely through `on_remote_update`:
processing a debounced button sample (pressed or released) never changes
any channel's LED, whether seen at the single-channel handler, at the
full pipeline, or across the four-channel system. -/
theorem led_driven_only_by_remote (ch : Channel) (lv : Bool)
    (s : FullState) (t : Nat) (sys : List ChannelCtl) (i : Nat) :
    ((onButton ch lv).1).led = ch.led ∧
    ((fullStep s (TimedEvent.button t lv)).1).ch.led = s.ch.led ∧
    ((sysStep sys (SysEvent.press i lv)).1).map ChannelCtl.led
      = sys.map ChannelCtl.led := by
  refine ⟨?_, fullStep_button_led s t lv, ?_⟩
  · unfold onButton
    by_cases h : lv = false <;> simp [h]
  · unfold sysStep
    cases h : sys[i]? with
    | none => simp [h]
    | some c =>
      simp only [h]
      exact map_set_self ChannelCtl.led sys i ((ctlButton c lv).1)
        (fun b hb => by
          rw [h] at hb
          cases hb
          exact (ctlButton_frame c lv).1)

/-- C8: the program instantiates exactly four channel controllers, with
button pins 16-19, status LED pins 12-15, and the four default SignalK
light paths, in order. -/
theorem four_channels_constants :
    num_relays = 4 ∧
    buttonPins = [16, 17, 18, 19] ∧
    statusLEDPins = [12, 13, 14, 15] ∧
    default_sk_paths =
      ["electrical.switches.light.cabin.state",
       "electrical.switches.light.port.state",
       "electrical.switches.light.starboard.state",
       "electrical.switches.light.engine.state"] ∧
    initSystem.length = 4 ∧
    initSystem.map ChannelCtl.buttonPin = buttonPins ∧
    initSystem.map ChannelCtl.ledPin = statusLEDPins ∧
    initSystem.map ChannelCtl.put_path = default_sk_paths ∧
    initSystem.map ChannelCtl.listen_path = default_sk_paths := by
  refine ⟨rfl, rfl, rfl, rfl, rfl, rfl, rfl, rfl, rfl⟩

/-- Closed form of `altEnd`: the toggle state after `n` accepted presses
flips exactly when `n` is odd. -/
theorem altEnd_closed (n : Nat) :
    ∀ b : Bool, altEnd b n = bif decide (n % 2 = 1) then ! b else b := by
  induction n with
  | zero => intro b; simp [altEnd]
  | succ m ih =>
    intro b
    show altEnd (! b) m = _
    rw [ih (! b)]
    have hiff : ((m + 1) % 2 = 1) ↔ ¬ (m % 2 = 1) := by omega
    rw [decide_eq_decide.mpr hiff, decide_not]
    cases h : decide (m % 2 = 1) <;> simp

/-- `altPubs` element by element: the `k`-th publish is the toggle state
after `k + 1` presses. -/
theorem altPubs_closed (n : Nat) :
    ∀ b : Bool, altPubs b n
      = (List.range n).map (fun k => ChanOut.publish (altEnd b (k + 1))) := by
  induction n with
  | zero => intro b; rfl
  | succ m ih =>
    intro b
    show ChanOut.publish (! b) :: altPubs (! b) m = _
    rw [ih (! b), List.range_succ_eq_map, List.map_cons, List.map_map]
    rfl

/-- From `false`, the `k`-th publish (0-based) is `true` exactly when
`k + 1` is odd. -/
theorem altPubs_false (n : Nat) :
    altPubs false n
      = (List.range n).map (fun k => ChanOut.publish (decide ((k + 1) % 2 = 1))) := by
  rw [altPubs_closed n false]
  exact List.map_congr_left (fun k _ => by rw [altEnd_closed]; cases h : decide ((k + 1) % 2 = 1) <;> simp)

/-- From `false`, the toggle state after `n` presses is `true` exactly
when `n` is odd. -/
theorem altEnd_false (n : Nat) : altEnd false n = decide (n % 2 = 1) := by
  rw [altEnd_closed]
  cases h : decide (n % 2 = 1) <;> simp

/-- A run of presses each at least `debounce_ms` after the previous one,
starting right after an accepted transition at `t0`, is accepted press by
press: it produces the alternating publish sequence and flips the toggle
state once per press. -/
theorem fullRun_presses (times : List Nat) :
    ∀ (t0 : Nat) (ch : Channel),
      List.Chain' (fun a b => a + debounce_ms ≤ b) (t0 :: times) →
      (fullRun ⟨⟨some t0⟩, ch⟩ (times.map (fun t => TimedEvent.button t false))).2
          = altPubs ch.current_state times.length ∧
      ((fullRun ⟨⟨some t0⟩, ch⟩ (times.map (fun t => TimedEvent.button t false))).1).ch
          = ⟨altEnd ch.current_state times.length, ch.led⟩ := by
  induction times with
  | nil => intro t0 ch _; exact ⟨rfl, rfl⟩
  | cons t ts ih =>
    intro t0 ch hchain
    rw [List.chain'_cons] at hchain
    obtain ⟨hle, hchain'⟩ := hchain
    have hstep := fullStep_accept_some t0 t ch false hle
    have hrest := ih t ⟨! ch.current_state, ch.led⟩ hchain'
    constructor
    · show ((fullStep ⟨⟨some t0⟩, ch⟩ (TimedEvent.button t false)).2
          ++ (fullRun (fullStep ⟨⟨some t0⟩, ch⟩ (TimedEvent.button t false)).1
                (ts.map (fun x => TimedEvent.button x false))).2) = _
      rw [hstep]
      show ChanOut.publish (! ch.current_state)
          :: (fullRun ⟨⟨some t⟩, ⟨! ch.current_state, ch.led⟩⟩
                (ts.map (fun x => TimedEvent.button x false))).2 = _
      rw [hrest.1]
      rfl
    · show ((fullRun (fullStep ⟨⟨some t0⟩, ch⟩ (TimedEvent.button t false)).1
          (ts.map (fun x => TimedEvent.button x false))).1).ch = _
      rw [hstep]
      exact hrest.2

/-- Button transitions all falling within the debounce window opened at
`t0` are all suppressed: the channel state does not move. -/
theorem fullRun_window_suppressed (rest : List (Nat × Bool)) (t0 : Nat) :
    ∀ ch : Channel, (∀ p ∈ rest, p.1 < t0 + debounce_ms) →
      fullRun ⟨⟨some t0⟩, ch⟩ (rest.map (fun p => TimedEvent.button p.1 p.2))
        = (⟨⟨some t0⟩, ch⟩, []) := by
  induction rest with
  | nil => intro ch _; rfl
  | cons p ps ih =>
    intro ch hw
    have hstep := fullStep_suppressed t0 p.1 ch p.2 (hw p (by simp))
    have hrest := ih ch (fun q hq => hw q (by simp [hq]))
    show ((fullRun (fullStep ⟨⟨some t0⟩, ch⟩ (TimedEvent.button p.1 p.2)).1
            (ps.map (fun q => TimedEvent.button q.1 q.2))).1,
          (fullStep ⟨⟨some t0⟩, ch⟩ (TimedEvent.button p.1 p.2)).2
            ++ (fullRun (fullStep ⟨⟨some t0⟩, ch⟩ (TimedEvent.button p.1 p.2)).1
                  (ps.map (fun q => TimedEvent.button q.1 q.2))).2) = _
    rw [hstep]
    show ((fullRun ⟨⟨some t0⟩, ch⟩ (ps.map (fun q => TimedEvent.button q.1 q.2))).1,
          (fullRun ⟨⟨some t0⟩, ch⟩ (ps.map (fun q => TimedEvent.button q.1 q.2))).2) = _
    rw [hrest]

/-- C1: for a sequence of presses spaced at least 50 ms apart, every
press passes the debouncer and the press consumer then flips the Local
Toggle State and issues exactly one publish of the flipped value: from
the initial `false`, the `k`-th press (0-based index `k`, so 1-based
number `k + 1`) publishes `true` exactly when `k + 1` is odd, and the
state after `n` presses is `true` exactly when `n` is odd. -/
theorem presses_alternate (times : List Nat)
    (hgap : List.Chain' (fun a b => a + debounce_ms ≤ b) times) :
    (fullRun initFull (times.map (fun t => TimedEvent.button t false))).2
      = (List.range times.length).map
          (fun k => ChanOut.publish (decide ((k + 1) % 2 = 1))) ∧
    ((fullRun initFull (times.map (fun t => TimedEvent.button t false))).1).ch.current_state
      = decide (times.length % 2 = 1) ∧
    ∀ ch : Channel, onButton ch false
      = ({ ch with current_state := ! ch.current_state }, [! ch.current_state]) := by
  have main :
      (fullRun initFull (times.map (fun t => TimedEvent.button t false))).2
        = (List.range times.length).map
            (fun k => ChanOut.publish (decide ((k + 1) % 2 = 1))) ∧
      ((fullRun initFull (times.map (fun t => TimedEvent.button t false))).1).ch.current_state
        = decide (times.length % 2 = 1) := by
    cases times with
    | nil => exact ⟨rfl, rfl⟩
    | cons t0 ts =>
      have hrest := fullRun_presses ts t0 ⟨true, false⟩ hgap
      have hout : (fullRun initFull ((t0 :: ts).map (fun t => TimedEvent.button t false))).2
          = altPubs false (ts.length + 1) := by
        show ChanOut.publish true
            :: (fullRun ⟨⟨some t0⟩, ⟨true, false⟩⟩
                  (ts.map (fun t => TimedEvent.button t false))).2 = _
        rw [hrest.1]
        rfl
      have hst : ((fullRun initFull ((t0 :: ts).map (fun t => TimedEvent.button t false))).1).ch
          = ⟨altEnd false (ts.length + 1), false⟩ := by
        show ((fullRun ⟨⟨some t0⟩, ⟨true, false⟩⟩
            (ts.map (fun t => TimedEvent.button t false))).1).ch = _
        rw [hrest.2]
        rfl
      constructor
      · rw [hout, altPubs_false]
        rfl
      · rw [hst]
        show altEnd false (ts.length + 1) = decide ((ts.length + 1) % 2 = 1)
        rw [altEnd_false]
  exact ⟨main.1, main.2, fun ch => by simp [onButton]⟩

/-- Witness for C1 at presses at 0 ms, 50 ms and 120 ms. -/
theorem presses_alternate_witness :
    List.Chain' (fun a b => a + debounce_ms ≤ b) [0, 50, 120] ∧
    ((fullRun initFull ([0, 50, 120].map (fun t => TimedEvent.button t false))).2
      = (List.range (List.length [0, 50, 120])).map
          (fun k => ChanOut.publish (decide ((k + 1) % 2 = 1))) ∧
    ((fullRun initFull ([0, 50, 120].map (fun t => TimedEvent.button t false))).1).ch.current_state
      = decide (List.length [0, 50, 120] % 2 = 1) ∧
    ∀ ch : Channel, onButton ch false
      = ({ ch with current_state := ! ch.current_state }, [! ch.current_state])) :=
  ⟨List.Chain.cons (by decide) (List.Chain.cons (by decide) List.Chain.nil),
   presses_alternate [0, 50, 120]
     (List.Chain.cons (by decide) (List.Chain.cons (by decide) List.Chain.nil))⟩

/-- C2: the remote-update consumer writes exactly the received value to
the LED, with no filtering and no comparison against the toggle state;
hence after any run whose last remote notification carries `v` the LED
level is `v`, and delivering `true` then `false` drives the LED on then
off whatever the press history was. -/
theorem led_mirrors_remote (s : FullState) (evs post : List TimedEvent)
    (v : Bool) (ch : Channel)
    (hpost : ∀ e ∈ post, ∀ w, e ≠ TimedEvent.remote w) :
    on_remote_update ch v = ⟨ch.current_state, v⟩ ∧
    ((fullRun s (evs ++ TimedEvent.remote v :: post)).1).ch.led = v ∧
    ((fullRun s (evs ++ [TimedEvent.remote true])).1).ch.led = true ∧
    ((fullRun s (evs ++ [TimedEvent.remote true, TimedEvent.remote false])).1).ch.led = false := by
  refine ⟨rfl, fullRun_led_last_remote s evs post v hpost,
    fullRun_led_last_remote s evs [] true (by simp), ?_⟩
  have h : evs ++ [TimedEvent.remote true, TimedEvent.remote false]
      = (evs ++ [TimedEvent.remote true]) ++ TimedEvent.remote false :: [] := by
    simp
  rw [h]
  exact fullRun_led_last_remote s (evs ++ [TimedEvent.remote true]) [] false (by simp)

/-- Witness for C2: press history, then remote `true`, then a further
press; the LED still shows `true`. -/
theorem led_mirrors_remote_witness :
    (∀ e ∈ [TimedEvent.button 100 false], ∀ w, e ≠ TimedEvent.remote w) ∧
    (on_remote_update ⟨true, false⟩ true = ⟨true, true⟩ ∧
     ((fullRun initFull ([TimedEvent.button 0 false]
        ++ TimedEvent.remote true :: [TimedEvent.button 100 false])).1).ch.led = true ∧
     ((fullRun initFull ([TimedEvent.button 0 false]
        ++ [TimedEvent.remote true])).1).ch.led = true ∧
     ((fullRun initFull ([TimedEvent.button 0 false]
        ++ [TimedEvent.remote true, TimedEvent.remote false])).1).ch.led = false) :=
  ⟨by decide,
   led_mirrors_remote initFull [TimedEvent.button 0 false]
     [TimedEvent.button 100 false] true ⟨true, false⟩ (by decide)⟩

/-- C3: a press opening the debounce window followed by any button
transitions inside that window yields exactly one publish: the state
toggles from `false` to `true` once, every later transition of the
cluster being suppressed. -/
theorem cluster_single_toggle (t0 : Nat) (rest : List (Nat × Bool))
    (hwin : ∀ p ∈ rest, p.1 < t0 + debounce_ms) :
    (fullRun initFull
        (TimedEvent.button t0 false :: rest.map (fun p => TimedEvent.button p.1 p.2))).2
      = [ChanOut.publish true] ∧
    ((fullRun initFull
        (TimedEvent.button t0 false :: rest.map (fun p => TimedEvent.button p.1 p.2))).1).ch
      = ⟨true, false⟩ := by
  have hrest := fullRun_window_suppressed rest t0 ⟨true, false⟩ hwin
  constructor
  · show ChanOut.publish true
        :: (fullRun ⟨⟨some t0⟩, ⟨true, false⟩⟩
              (rest.map (fun p => TimedEvent.button p.1 p.2))).2 = _
    rw [hrest]
  · show ((fullRun ⟨⟨some t0⟩, ⟨true, false⟩⟩
        (rest.map (fun p => TimedEvent.button p.1 p.2))).1).ch = _
    rw [hrest]

/-- Witness for C3 at the spec's scenario: press at 0 ms, release at
15 ms, press at 30 ms. -/
theorem cluster_single_toggle_witness :
    (∀ p ∈ [((15 : Nat), true), ((30 : Nat), false)], p.1 < 0 + debounce_ms) ∧
    ((fullRun initFull
        (TimedEvent.button 0 false
          :: [((15 : Nat), true), ((30 : Nat), false)].map
              (fun p => TimedEvent.button p.1 p.2))).2
      = [ChanOut.publish true] ∧
    ((fullRun initFull
        (TimedEvent.button 0 false
          :: [((15 : Nat), true), ((30 : Nat), false)].map
              (fun p => TimedEvent.button p.1 p.2))).1).ch
      = ⟨true, false⟩) :=
  ⟨by decide, cluster_single_toggle 0 [(15, true), (30, false)] (by decide)⟩

/-- System states compose along appended event lists. -/
theorem sysRun_append_fst (a : List SysEvent) :
    ∀ (sys : List ChannelCtl) (b : List SysEvent),
      (sysRun sys (a ++ b)).1 = (sysRun (sysRun sys a).1 b).1 := by
  induction a with
  | nil => intro sys b; rfl
  | cons e es ih => intro sys b; exact ih (sysStep sys e).1 b

/-- The four default SignalK paths are pairwise distinct. -/
theorem default_sk_paths_pairwise :
    ∀ i : Nat, i < 4 → ∀ j : Nat, j < 4 → i ≠ j →
      default_sk_paths[i]? ≠ default_sk_paths[j]? := by decide

/-- C7: channels are independent. In any reachable state of the
four-channel system, a debounced button sample for channel `i` leaves
channel `j` (toggle state and LED alike) untouched, and a remote
notification on channel `i`'s listener path leaves channel `j`'s LED
untouched, for `i ≠ j`. -/
theorem channels_independent (evs : List SysEvent) (i j : Nat)
    (hij : i ≠ j) (hj : j < num_relays) (level v : Bool) :
    ((sysStep (sysRun initSystem evs).1 (SysEvent.press i level)).1)[j]?
        = ((sysRun initSystem evs).1)[j]? ∧
    ∀ chi, ((sysRun initSystem evs).1)[i]? = some chi →
      (((sysStep (sysRun initSystem evs).1
            (SysEvent.remote chi.listen_path v)).1)[j]?).map ChannelCtl.led
        = (((sysRun initSystem evs).1)[j]?).map ChannelCtl.led := by
  have hmap : ((sysRun initSystem evs).1).map ChannelCtl.listen_path
      = default_sk_paths := sysRun_init_listen_paths evs
  have hlen : ((sysRun initSystem evs).1).length = 4 := by
    rw [sysRun_length]
    rfl
  constructor
  · unfold sysStep
    cases h : ((sysRun initSystem evs).1)[i]? with
    | none => simp [h]
    | some ch =>
      simp only [h]
      exact List.getElem?_set_ne hij
  · intro chi hchi
    have hi : i < ((sysRun initSystem evs).1).length := by
      rcases List.getElem?_eq_some.mp hchi with ⟨h1, _⟩
      exact h1
    have hj' : j < ((sysRun initSystem evs).1).length := by
      rw [hlen]
      exact hj
    have hjsome : ((sysRun initSystem evs).1)[j]?
        = some ((sysRun initSystem evs).1)[j] := List.getElem?_eq_getElem hj'
    have hdi : default_sk_paths[i]? = some chi.listen_path := by
      rw [← hmap, List.getElem?_map, hchi]
      rfl
    have hdj : default_sk_paths[j]?
        = some (((sysRun initSystem evs).1)[j]).listen_path := by
      rw [← hmap, List.getElem?_map, hjsome]
      rfl
    have hne : (((sysRun initSystem evs).1)[j]).listen_path ≠ chi.listen_path := by
      intro heq
      apply default_sk_paths_pairwise i (by rw [← hlen]; exact hi) j hj hij
      rw [hdi, hdj, heq]
    show ((((sysRun initSystem evs).1).map
        (fun ch => ctlRemote ch chi.listen_path v))[j]?).map ChannelCtl.led
      = (((sysRun initSystem evs).1)[j]?).map ChannelCtl.led
    rw [List.getElem?_map, hjsome]
    show some (ChannelCtl.led (ctlRemote _ chi.listen_path v)) = _
    rw [show ctlRemote (((sysRun initSystem evs).1)[j]) chi.listen_path v
        = ((sysRun initSystem evs).1)[j] from by
      unfold ctlRemote
      rw [if_neg hne]]
    rfl

/-- Witness for C7: channels 0 and 1 right after `setup`. -/
theorem channels_independent_witness :
    (0 : Nat) ≠ 1 ∧ (1 : Nat) < num_relays ∧
    (((sysStep (sysRun initSystem []).1 (SysEvent.press 0 false)).1)[1]?
        = ((sysRun initSystem []).1)[1]? ∧
     ∀ chi, ((sysRun initSystem []).1)[0]? = some chi →
      (((sysStep (sysRun initSystem []).1
            (SysEvent.remote chi.listen_path true)).1)[1]?).map ChannelCtl.led
        = (((sysRun initSystem []).1)[1]?).map ChannelCtl.led) :=
  ⟨by decide, by decide,
   channels_independent [] 0 1 (by decide) (by decide) false true⟩

/-- C9: only the put-request path of a channel is runtime-configurable.
After any run ending in a `ConfigItem` update of channel `i`'s publish
path to `p`, the listener paths of all channels are still the
compile-time defaults, channel `i` publishes to `p` on the next press,
yet its LED is still driven by notifications on the original default
path. -/
theorem listener_path_fixed (evs : List SysEvent) (i : Nat)
    (hi : i < num_relays) (p : String) (v : Bool) :
    ((sysRun initSystem (evs ++ [SysEvent.config i p])).1).map ChannelCtl.listen_path
        = default_sk_paths ∧
    (((sysRun initSystem (evs ++ [SysEvent.config i p])).1)[i]?).map ChannelCtl.put_path
        = some p ∧
    (((sysStep (sysRun initSystem (evs ++ [SysEvent.config i p])).1
          (SysEvent.remote (default_sk_paths.getD i "") v)).1)[i]?).map ChannelCtl.led
        = some v ∧
    ∀ pub ∈ (sysStep (sysRun initSystem (evs ++ [SysEvent.config i p])).1
          (SysEvent.press i false)).2, pub.path = p := by
  have hlen0 : ((sysRun initSystem evs).1).length = 4 := by
    rw [sysRun_length]
    rfl
  have hi0 : i < ((sysRun initSystem evs).1).length := by
    rw [hlen0]
    exact hi
  have hch : ((sysRun initSystem evs).1)[i]?
      = some ((sysRun initSystem evs).1)[i] := List.getElem?_eq_getElem hi0
  have hmap0 : ((sysRun initSystem evs).1).map ChannelCtl.listen_path
      = default_sk_paths := sysRun_init_listen_paths evs
  have hrun : (sysRun initSystem (evs ++ [SysEvent.config i p])).1
      = ((sysRun initSystem evs).1).set i
          { ((sysRun initSystem evs).1)[i] with put_path := p } := by
    rw [sysRun_append_fst]
    show (sysStep (sysRun initSystem evs).1 (SysEvent.config i p)).1 = _
    simp only [sysStep, hch]
  have hlisten : (((sysRun initSystem evs).1)[i]).listen_path
      = default_sk_paths.getD i "" := by
    have hd : default_sk_paths[i]?
        = some ((((sysRun initSystem evs).1)[i]).listen_path) := by
      rw [← hmap0, List.getElem?_map, hch]
      rfl
    have : default_sk_paths.getD i "" = default_sk_paths[i] := by
      apply List.getD_eq_getElem
    rw [this]
    have := List.getElem?_eq_getElem (show i < default_sk_paths.length from hi)
    rw [this] at hd
    exact (Option.some_inj.mp hd).symm
  have hset : ((sysRun initSystem (evs ++ [SysEvent.config i p])).1)[i]?
      = some { ((sysRun initSystem evs).1)[i] with put_path := p } := by
    rw [hrun]
    exact List.getElem?_set_eq_of_lt _ hi0
  refine ⟨sysRun_init_listen_paths (evs ++ [SysEvent.config i p]), ?_, ?_, ?_⟩
  · rw [hset]
    rfl
  · show (((((sysRun initSystem (evs ++ [SysEvent.config i p])).1).map
        (fun ch => ctlRemote ch (default_sk_paths.getD i "") v))[i]?).map ChannelCtl.led)
      = some v
    rw [List.getElem?_map, hset]
    show some (ChannelCtl.led (ctlRemote _ _ v)) = some v
    rw [show ctlRemote { ((sysRun initSystem evs).1)[i] with put_path := p }
          (default_sk_paths.getD i "") v
        = { ((sysRun initSystem evs).1)[i] with put_path := p, led := v } from by
      unfold ctlRemote
      rw [if_pos hlisten]]
  · intro pub hpub
    have hstep : (sysStep (sysRun initSystem (evs ++ [SysEvent.config i p])).1
          (SysEvent.press i false)).2
        = [⟨p, ! (((sysRun initSystem evs).1)[i]).current_state⟩] := by
      simp [sysStep, hset, ctlButton]
    rw [hstep] at hpub
    simp at hpub
    rw [hpub]

/-- Witness for C9: reconfigure channel 0 to publish to path `"a"`. -/
theorem listener_path_fixed_witness :
    (0 : Nat) < num_relays ∧
    (((sysRun initSystem ([] ++ [SysEvent.config 0 "a"])).1).map ChannelCtl.listen_path
        = default_sk_paths ∧
     (((sysRun initSystem ([] ++ [SysEvent.config 0 "a"])).1)[0]?).map ChannelCtl.put_path
        = some "a" ∧
     (((sysStep (sysRun initSystem ([] ++ [SysEvent.config 0 "a"])).1
          (SysEvent.remote (default_sk_paths.getD 0 "") true)).1)[0]?).map ChannelCtl.led
        = some true ∧
     ∀ pub ∈ (sysStep (sysRun initSystem ([] ++ [SysEvent.config 0 "a"])).1
          (SysEvent.press 0 false)).2, pub.path = "a") :=
  ⟨by decide, listener_path_fixed [] 0 (by decide) "a" true⟩

/-- The per-channel step relation is deterministic: a state and an event
determine the next state and the outputs. -/
theorem chanStep_deterministic {s : FullState} {e : TimedEvent}
    {s1 s2 : FullState} {o1 o2 : List ChanOut}
    (h1 : ChanStep s e s1 o1) (h2 : ChanStep s e s2 o2) :
    s1 = s2 ∧ o1 = o2 := by
  cases h1 with
  | acceptPress d c t h =>
    cases h2 with
    | acceptPress _ _ _ _ => exact ⟨rfl, rfl⟩
    | suppressed _ _ _ t0 _ h0 hlt =>
      rcases h with hnone | ⟨t1, ht1, hle⟩
      · rw [h0] at hnone
        cases hnone
      · rw [h0] at ht1
        cases ht1
        omega
  | acceptRelease d c t h =>
    cases h2 with
    | acceptRelease _ _ _ _ => exact ⟨rfl, rfl⟩
    | suppressed _ _ _ t0 _ h0 hlt =>
      rcases h with hnone | ⟨t1, ht1, hle⟩
      · rw [h0] at hnone
        cases hnone
      · rw [h0] at ht1
        cases ht1
        omega
  | suppressed d c t t0 level h0 hlt =>
    cases h2 with
    | acceptPress _ _ _ h =>
      rcases h with hnone | ⟨t1, ht1, hle⟩
      · rw [h0] at hnone
        cases hnone
      · rw [h0] at ht1
        cases ht1
        omega
    | acceptRelease _ _ _ h =>
      rcases h with hnone | ⟨t1, ht1, hle⟩
      · rw [h0] at hnone
        cases hnone
      · rw [h0] at ht1
        cases ht1
        omega
    | suppressed _ _ _ _ _ _ _ => exact ⟨rfl, rfl⟩
  | remote d c v =>
    cases h2 with
    | remote _ _ _ => exact ⟨rfl, rfl⟩

/-- The step relation agrees with the executable pipeline `fullStep`. -/
theorem chanStep_fullStep (s : FullState) (e : TimedEvent) :
    ChanStep s e (fullStep s e).1 (fullStep s e).2 := by
  obtain ⟨⟨la⟩, c⟩ := s
  cases e with
  | remote v => exact ChanStep.remote ⟨la⟩ c v
  | button t level =>
    cases la with
    | none =>
      cases level with
      | false =>
        have h := fullStep_accept_none c t false
        rw [h]
        exact ChanStep.acceptPress ⟨none⟩ c t (Or.inl rfl)
      | true =>
        have h := fullStep_accept_none c t true
        rw [h]
        exact ChanStep.acceptRelease ⟨none⟩ c t (Or.inl rfl)
    | some t0 =>
      by_cases hle : t0 + debounce_ms ≤ t
      · cases level with
        | false =>
          rw [fullStep_accept_some t0 t c false hle]
          exact ChanStep.acceptPress ⟨some t0⟩ c t (Or.inr ⟨t0, rfl, hle⟩)
        | true =>
          rw [fullStep_accept_some t0 t c true hle]
          exact ChanStep.acceptRelease ⟨some t0⟩ c t (Or.inr ⟨t0, rfl, hle⟩)
      · rw [fullStep_suppressed t0 t c level (Nat.not_le.mp hle)]
        exact ChanStep.suppressed ⟨some t0⟩ c t t0 level rfl (Nat.not_le.mp hle)

/-- C10: the per-channel logic is deterministic: two runs from the same
state over the identical sequence of timed input events end in the same
state and produce the identical sequence of outputs (published values
and LED writes); the event sequence is the only input of the relation. -/
theorem channel_deterministic {s s1 s2 : FullState} {evs : List TimedEvent}
    {o1 o2 : List ChanOut} (h1 : ChanRun s evs s1 o1)
    (h2 : ChanRun s evs s2 o2) : s1 = s2 ∧ o1 = o2 := by
  induction h1 generalizing s2 o2 with
  | nil _ =>
    cases h2 with
    | nil _ => exact ⟨rfl, rfl⟩
  | cons hstep hrun ih =>
    cases h2 with
    | cons hstep2 hrun2 =>
      obtain ⟨hs, ho⟩ := chanStep_deterministic hstep hstep2
      cases hs
      cases ho
      obtain ⟨hs2, ho2⟩ := ih hrun2
      exact ⟨hs2, by rw [ho2]⟩

/-- Witness for C10: two identical runs of press-then-notify from the
initial state. -/
theorem channel_deterministic_witness :
    (⟨⟨some 0⟩, ⟨true, true⟩⟩ : FullState) = ⟨⟨some 0⟩, ⟨true, true⟩⟩ ∧
    ([ChanOut.publish true, ChanOut.ledWrite true] : List ChanOut)
      = [ChanOut.publish true, ChanOut.ledWrite true] := by
  have hstep1 : ChanStep initFull (TimedEvent.button 0 false)
      ⟨⟨some 0⟩, ⟨true, false⟩⟩ [ChanOut.publish true] :=
    ChanStep.acceptPress ⟨none⟩ ⟨false, false⟩ 0 (Or.inl rfl)
  have hstep2 : ChanStep ⟨⟨some 0⟩, ⟨true, false⟩⟩ (TimedEvent.remote true)
      ⟨⟨some 0⟩, ⟨true, true⟩⟩ [ChanOut.ledWrite true] :=
    ChanStep.remote ⟨some 0⟩ ⟨true, false⟩ true
  have hrun : ChanRun initFull [TimedEvent.button 0 false, TimedEvent.remote true]
      ⟨⟨some 0⟩, ⟨true, true⟩⟩ [ChanOut.publish true, ChanOut.ledWrite true] :=
    ChanRun.cons hstep1 (ChanRun.cons hstep2 (ChanRun.nil _))
  exact channel_deterministic hrun hrun

end RemoteRelay
